import Mathlib

/-!
Shallow embedding of the `ai_quant` trading control plane, restricted to the
components the verified claims are about:

* the rule-based risk agent (`internal/agent/risk/risk.go`),
* the position-entry planner (`internal/agent/position`),
* holdings reconciliation (`internal/orchestrator/service.go`,
  `UpdateHoldingAfterTrade`),
* the spot and futures execution agents (`internal/agent/execution`),
* the signal agent's failure policy (`internal/auth/manager.go`),
* the indicator kit (`internal/market/indicator.go`),
* the news-title sanitizer (`market/social` source file),
* the paginated cycle listing (store + HTTP handler).

Conventions: Go `float64` arithmetic is modelled exactly over `ℚ`
(the specification's tolerances such as "within 1e-6" are subsumed by exact
equality); Go strings are Lean `String`s or `List Char`; runtime-generated
identifiers (UUIDs) and wall-clock timestamps carry no information for any
claim and are omitted from the embedded records; Go's `(T, error)` returns
become `T × Option String` or an explicit result type.  Network effects are
represented by oracle parameters (e.g. the result of a public price fetch)
and by result constructors that record the outbound request instead of
performing it.
-/

namespace AiQuant

/-! ## Domain model (`internal/domain/types.go`) -/

/-- `domain.Side`: the direction carried by a signal or order.  `short` is
declared in the Go source but disabled in policy. -/
inductive Side
  | long
  | short
  | close
  | none
  deriving DecidableEq, Repr

/-- `domain.PortfolioState` (the fields the risk agent reads). -/
structure PortfolioState where
  dailyPnLUSDT : ℚ
  openExposureUSDT : ℚ
  deriving Repr

/-- The fields of `domain.Signal` that the risk agent and planner read. -/
structure SignalState where
  side : Side
  confidence : ℚ
  deriving Repr

/-- `domain.RiskDecision` (UUID/time fields omitted). -/
structure RiskDecision where
  approved : Bool
  rejectReason : String
  maxStakeUSDT : ℚ
  deriving Repr

/-! ## Risk agent (`internal/agent/risk/risk.go`) -/

/-- The configured parameters of `risk.RuleAgent`.  The `tradingMode` and
`leverage` fields of the Go struct feed only a log line in `Evaluate` and are
omitted. -/
structure RiskConfig where
  maxSingleStakeUSDT : ℚ
  maxDailyLossUSDT : ℚ
  maxExposureUSDT : ℚ
  minConfidence : ℚ
  deriving Repr

/-- `RuleAgent.Evaluate`.  The Go method formats the rejected confidence and
limits into the reason strings with `fmt.Sprintf`; the embedding keeps the
fixed text of each message (every message is non-empty, which is all the
claims consume).  Every Go return statement returns a `nil` error, so the
embedding is a total function; see `EvaluateE` for the error channel. -/
def Evaluate (a : RiskConfig) (signal : SignalState) (portfolio : PortfolioState) :
    RiskDecision :=
  let decision : RiskDecision :=
    { approved := false, rejectReason := "", maxStakeUSDT := 0 }
  if signal.side = Side.none then
    { decision with rejectReason := "signal side is none" }
  else if signal.side = Side.close then
    if signal.confidence < a.minConfidence then
      { decision with rejectReason := "close signal confidence below min" }
    else
      { decision with approved := true, maxStakeUSDT := 0 }
  else
    if signal.confidence < a.minConfidence then
      { decision with rejectReason := "signal confidence below min" }
    else if portfolio.dailyPnLUSDT ≤ -|a.maxDailyLossUSDT| then
      { decision with rejectReason := "daily pnl below max loss limit" }
    else
      let remainingExposure := a.maxExposureUSDT - portfolio.openExposureUSDT
      if remainingExposure ≤ 0 then
        { decision with rejectReason := "max exposure limit reached" }
      else
        let maxStake := min a.maxSingleStakeUSDT remainingExposure
        if maxStake ≤ 0 then
          { decision with rejectReason := "computed max stake is zero",
                          maxStakeUSDT := maxStake }
        else
          { decision with approved := true, maxStakeUSDT := maxStake }

/-- `RuleAgent.Evaluate` with its Go error channel: every path in the source
returns `(decision, nil)`. -/
def EvaluateE (a : RiskConfig) (signal : SignalState) (portfolio : PortfolioState) :
    Except String RiskDecision :=
  Except.ok (Evaluate a signal portfolio)

/-! ## Position planner (`internal/agent/position`, `src/unnamed/part_009`) -/

/-- `domain.Strategy*` constants: the planner only ever selects these three. -/
inductive Strategy
  | full
  | pyramid
  | grid
  deriving DecidableEq, Repr

/-- `domain.PositionBatch` (executed_* fields, always empty at planning time,
are omitted). -/
structure PositionBatch where
  batchNo : ℕ
  triggerPrice : ℚ
  amount : ℚ
  percentage : ℚ
  status : String
  deriving DecidableEq, Repr

/-- `domain.PositionStrategy` (ids, pair, reason text and timestamps
omitted). -/
structure PositionStrategy where
  side : Side
  strategy : Strategy
  totalAmount : ℚ
  entryLevels : ℕ
  batches : List PositionBatch
  takeProfitPercent : ℚ
  stopLossPercent : ℚ
  deriving Repr

/-- The planner input fields `Generate` reads (`position.Input`). -/
structure PlanInput where
  side : Side
  confidence : ℚ
  maxStakeUSDT : ℚ
  currentPrice : ℚ
  deriving Repr

/-- `agent.selectStrategy`: confidence tiers (the `amount` argument is unused
in the source as well). -/
def selectStrategy (confidence _amount : ℚ) : Strategy :=
  if confidence ≥ 0.75 then Strategy.full
  else if confidence ≥ 0.60 then Strategy.pyramid
  else Strategy.grid

/-- `agent.generateFullStrategy`: one batch of 100% at the current price. -/
def generateFullStrategy (totalAmount currentPrice : ℚ) : List PositionBatch :=
  [{ batchNo := 1, triggerPrice := currentPrice, amount := totalAmount,
     percentage := 100, status := "pending" }]

/-- `agent.generatePyramidStrategy`: 50% / 30% / 20% at p, 0.98p, 0.96p. -/
def generatePyramidStrategy (totalAmount currentPrice : ℚ) : List PositionBatch :=
  [{ batchNo := 1, triggerPrice := currentPrice, amount := totalAmount * 0.50,
     percentage := 50, status := "pending" },
   { batchNo := 2, triggerPrice := currentPrice * 0.98, amount := totalAmount * 0.30,
     percentage := 30, status := "pending" },
   { batchNo := 3, triggerPrice := currentPrice * 0.96, amount := totalAmount * 0.20,
     percentage := 20, status := "pending" }]

/-- `agent.generateGridStrategy`: five equal batches, 1% price steps down. -/
def generateGridStrategy (totalAmount currentPrice : ℚ) : List PositionBatch :=
  let numBatches : ℕ := 5
  let amountPerBatch := totalAmount / (numBatches : ℚ)
  (List.range numBatches).map fun i =>
    { batchNo := i + 1,
      triggerPrice := currentPrice * (1 - (i : ℚ) * 0.01),
      amount := amountPerBatch,
      percentage := 100 / (numBatches : ℚ),
      status := "pending" }

/-- `agent.Generate`.  The Go `switch` has an error `default` branch, but it
is unreachable: `selectStrategy` returns only the three strategy constants,
which the `Strategy` type captures, so the embedding is total.  For a close
signal the source returns a trivial strategy with no batches. -/
def PlanGenerate (input : PlanInput) : PositionStrategy :=
  if input.side = Side.close then
    { side := input.side, strategy := Strategy.full, totalAmount := 0,
      entryLevels := 1, batches := [], takeProfitPercent := 0, stopLossPercent := 0 }
  else
    match selectStrategy input.confidence input.maxStakeUSDT with
    | Strategy.full =>
      { side := input.side, strategy := Strategy.full,
        totalAmount := input.maxStakeUSDT,
        entryLevels := (generateFullStrategy input.maxStakeUSDT input.currentPrice).length,
        batches := generateFullStrategy input.maxStakeUSDT input.currentPrice,
        takeProfitPercent := 5, stopLossPercent := 2 }
    | Strategy.pyramid =>
      { side := input.side, strategy := Strategy.pyramid,
        totalAmount := input.maxStakeUSDT,
        entryLevels := (generatePyramidStrategy input.maxStakeUSDT input.currentPrice).length,
        batches := generatePyramidStrategy input.maxStakeUSDT input.currentPrice,
        takeProfitPercent := 8, stopLossPercent := 3 }
    | Strategy.grid =>
      { side := input.side, strategy := Strategy.grid,
        totalAmount := input.maxStakeUSDT,
        entryLevels := (generateGridStrategy input.maxStakeUSDT input.currentPrice).length,
        batches := generateGridStrategy input.maxStakeUSDT input.currentPrice,
        takeProfitPercent := 10, stopLossPercent := 4 }

/-! ## Holdings reconciliation (`internal/orchestrator/service.go`,
`Service.UpdateHoldingAfterTrade`) -/

/-- `domain.Holding` (pair/symbol/source/updated_at carry no arithmetic
content and are omitted). -/
structure Holding where
  quantity : ℚ
  avgPrice : ℚ
  totalCost : ℚ
  deriving DecidableEq, Repr

/-- The order fields `UpdateHoldingAfterTrade` reads. -/
structure OrderFill where
  side : Side
  filledPrice : ℚ
  filledQuantity : ℚ
  deriving Repr


/-- The long branch of `UpdateHoldingAfterTrade` against an existing holding:
`new_qty = qty + filled_qty`, `new_cost = cost + filled_qty * filled_price`,
`avg = new_cost / new_qty`. -/
def longUpdate (h : Holding) (order : OrderFill) : Holding :=
  let newQty := h.quantity + order.filledQuantity
  let newCost := h.totalCost + order.filledQuantity * order.filledPrice
  { quantity := newQty, avgPrice := newCost / newQty, totalCost := newCost }

/-- The close branch of `UpdateHoldingAfterTrade` against an existing
holding.  The source computes `ratio := filled_qty / qty` and clamps it at 1;
Go's IEEE division makes `filled_qty / 0 = +Inf` for the positive
`filled_qty` the caller's guard guarantees, which the clamp sends to 1, and
the `quantity = 0` branch of the embedding records exactly that. -/
def closeUpdate (h : Holding) (order : OrderFill) : Holding :=
  let newQty0 := h.quantity - order.filledQuantity
  let newQty := if newQty0 < 0 then 0 else newQty0
  let rat : ℚ :=
    if h.quantity = 0 then 1
    else if order.filledQuantity / h.quantity > 1 then 1
    else order.filledQuantity / h.quantity
  let newCost := h.totalCost * (1 - rat)
  let avgPrice := if newQty > 0 then newCost / newQty else 0
  { quantity := newQty, avgPrice := avgPrice, totalCost := newCost }

/-- `Service.UpdateHoldingAfterTrade`, as the map from the currently stored
holding for the order's pair (`none` when absent) to the row upserted
(`none` when the function returns without writing).  The guard skips
non-positive fills; sides other than long and close leave holdings
untouched, as does a close with no existing row. -/
def UpdateHoldingAfterTrade (existing : Option Holding) (order : OrderFill) :
    Option Holding :=
  if order.filledPrice ≤ 0 ∨ order.filledQuantity ≤ 0 then
    Option.none
  else if order.side = Side.long then
    match existing with
    | Option.some h => Option.some (longUpdate h order)
    | Option.none =>
      Option.some { quantity := order.filledQuantity, avgPrice := order.filledPrice,
                    totalCost := order.filledQuantity * order.filledPrice }
  else if order.side = Side.close then
    match existing with
    | Option.some h => Option.some (closeUpdate h order)
    | Option.none => Option.none
  else
    Option.none

/-! ## Execution agents (`internal/agent/execution/execution.go` for spot,
`src/unnamed/part_008` for futures).

`Execute` is embedded up to its first network side effect: the result either
carries the returned order and Go error (`done`), or records the signed
exchange order request the source proceeds to send (`sendRequest`); what the
exchange replies is outside the program.  The dry-run public ticker fetch
(`fetchCurrentPrice`) is an unsigned public call whose outcome enters as the
`fetchedPrice : Option ℚ` oracle (`none` for a failed fetch). -/

/-- `execution.Input`. -/
structure ExecInput where
  pair : List Char
  side : Side
  stakeUSDT : ℚ
  estimatedFill : ℚ
  sellQuantity : ℚ
  deriving Repr

/-- The order fields built by `Execute` (UUIDs, client order ids, timestamps
and the raw response JSON are runtime artifacts carrying no claim content
and are omitted). -/
structure OrderModel where
  side : Side
  stakeUSDT : ℚ
  leverage : ℕ
  status : String
  filledPrice : ℚ
  filledQuantity : ℚ
  deriving DecidableEq, Repr

/-- `pairToSymbol`: "BTC/USDT" → "BTCUSDT" (drops every '/'). -/
def pairToSymbol (pair : List Char) : List Char :=
  pair.filter (fun c => c ≠ '/')

/-- `getMinQuantity`: per-instrument minimum tradable quantity. -/
def getMinQuantity (symbol : List Char) : ℚ :=
  let sym := symbol.map Char.toUpper
  if "DOGE".data.isPrefixOf sym then 1
  else if "XRP".data.isPrefixOf sym then 1
  else if "BNB".data.isPrefixOf sym then 0.01
  else if "SOL".data.isPrefixOf sym then 0.01
  else if "ETH".data.isPrefixOf sym then 0.0001
  else if "BTC".data.isPrefixOf sym then 0.00001
  else 1

/-- Floor to `d` decimal places: the value of Go's
`math.Floor(qty * 10^d) / 10^d`. -/
def floorToDecimals (qty : ℚ) (d : ℕ) : ℚ :=
  (⌊qty * 10 ^ d⌋ : ℚ) / 10 ^ d

/-- The per-instrument step-size decimal count of `quantityPrecision`
(spot table). -/
def spotQuantityDecimals (symbol : List Char) : ℕ :=
  let sym := symbol.map Char.toUpper
  if "DOGE".data.isPrefixOf sym then 0
  else if "XRP".data.isPrefixOf sym then 1
  else if "BNB".data.isPrefixOf sym ∨ "SOL".data.isPrefixOf sym then 2
  else if "ETH".data.isPrefixOf sym then 4
  else if "BTC".data.isPrefixOf sym then 5
  else 2

/-- `quantityPrecision`: the numeric value of the quantity string the source
formats (the source floors at the step-size decimals and prints with
`FormatFloat`, whose output `ParseFloat` reads back as the same value). -/
def quantityPrecision (symbol : List Char) (qty : ℚ) : ℚ :=
  floorToDecimals qty (spotQuantityDecimals symbol)

/-- `futuresQuantityPrecision`'s decimal table (ETH and BTC at 3 decimals,
unlike spot). -/
def futuresQuantityDecimals (symbol : List Char) : ℕ :=
  let sym := symbol.map Char.toUpper
  if "DOGE".data.isPrefixOf sym then 0
  else if "XRP".data.isPrefixOf sym then 1
  else if "BNB".data.isPrefixOf sym ∨ "SOL".data.isPrefixOf sym then 2
  else if "ETH".data.isPrefixOf sym then 3
  else if "BTC".data.isPrefixOf sym then 3
  else 2

/-- `futuresQuantityPrecision` as a numeric value. -/
def futuresQuantityPrecision (symbol : List Char) (qty : ℚ) : ℚ :=
  floorToDecimals qty (futuresQuantityDecimals symbol)

/-- The parameters of a signed spot order request (`/api/v3/order`). -/
structure SpotOrderParams where
  symbol : List Char
  side : String
  quantity : Option ℚ
  quoteOrderQty : Option ℚ
  deriving DecidableEq, Repr

/-- The parameters of a signed futures order request (`/fapi/v1/order`). -/
structure FuturesOrderParams where
  symbol : List Char
  side : String
  reduceOnly : Bool
  quantity : ℚ
  deriving DecidableEq, Repr

/-- Result of running `Execute` up to its first outbound order call. -/
inductive ExecResult (Req : Type)
  | done (order : OrderModel) (err : Option String)
  | sendRequest (order : OrderModel) (req : Req)
  deriving DecidableEq, Repr

/-- The dry-run fill-price resolution shared by both executors: keep a
positive `estimated_fill`, otherwise use the fetched ticker price when that
fetch succeeded with a positive price. -/
def dryRunFill (estimatedFill : ℚ) (fetchedPrice : Option ℚ) : ℚ :=
  if estimatedFill ≤ 0 then
    match fetchedPrice with
    | Option.some price => if 0 < price then price else estimatedFill
    | Option.none => estimatedFill
  else estimatedFill

/-- The order returned by the spot dry-run branch. -/
def spotDryRunOrder (input : ExecInput) (fetchedPrice : Option ℚ) : OrderModel :=
  let estimatedFill := dryRunFill input.estimatedFill fetchedPrice
  let filledQty :=
    if 0 < estimatedFill ∧ input.side = Side.long then
      input.stakeUSDT / estimatedFill
    else if 0 < input.sellQuantity then input.sellQuantity
    else 0
  { side := input.side, stakeUSDT := input.stakeUSDT, leverage := 0,
    status := "simulated_filled", filledPrice := estimatedFill,
    filledQuantity := filledQty }

/-- The order returned by the futures dry-run branch (quantity scaled by
leverage). -/
def futuresDryRunOrder (leverage : ℕ) (input : ExecInput)
    (fetchedPrice : Option ℚ) : OrderModel :=
  let estimatedFill := dryRunFill input.estimatedFill fetchedPrice
  let filledQty :=
    if 0 < estimatedFill ∧ input.side = Side.long then
      input.stakeUSDT * (leverage : ℚ) / estimatedFill
    else if 0 < input.sellQuantity then input.sellQuantity
    else 0
  { side := input.side, stakeUSDT := input.stakeUSDT, leverage := leverage,
    status := "simulated_filled", filledPrice := estimatedFill,
    filledQuantity := filledQty }

/-- `BinanceExecutor.Execute` (spot). -/
def spotExecute (dryRun hasCreds : Bool) (input : ExecInput)
    (fetchedPrice : Option ℚ) : ExecResult SpotOrderParams :=
  let order : OrderModel :=
    { side := input.side, stakeUSDT := input.stakeUSDT, leverage := 0,
      status := "created", filledPrice := 0, filledQuantity := 0 }
  if dryRun then
    ExecResult.done (spotDryRunOrder input fetchedPrice) Option.none
  else if ¬ hasCreds then
    ExecResult.done { order with status := "rejected" }
      (Option.some "交易所 API Key 未配置，无法实盘下单")
  else
    let symbol := pairToSymbol input.pair
    if input.side = Side.close then
      if 0 < input.sellQuantity then
        let qtyFloat := quantityPrecision symbol input.sellQuantity
        if qtyFloat ≤ 0 then
          ExecResult.done { order with status := "rejected" }
            (Option.some "卖出数量不足，低于最小交易量（灰尘持仓无法交易）")
        else
          ExecResult.sendRequest order
            { symbol := symbol, side := "SELL", quantity := Option.some qtyFloat,
              quoteOrderQty := Option.none }
      else
        ExecResult.sendRequest order
          { symbol := symbol, side := "SELL", quantity := Option.none,
            quoteOrderQty := Option.some input.stakeUSDT }
    else
      ExecResult.sendRequest order
        { symbol := symbol, side := "BUY", quantity := Option.none,
          quoteOrderQty := Option.some input.stakeUSDT }

/-- `BinanceFuturesExecutor.Execute`.  The futures symbol is the uppercased
pair with '/' removed; `leverage` is the instance's clamped configuration
value. -/
def futuresExecute (dryRun hasCreds : Bool) (leverage : ℕ) (input : ExecInput)
    (fetchedPrice : Option ℚ) : ExecResult FuturesOrderParams :=
  let order : OrderModel :=
    { side := input.side, stakeUSDT := input.stakeUSDT, leverage := leverage,
      status := "created", filledPrice := 0, filledQuantity := 0 }
  if dryRun then
    ExecResult.done (futuresDryRunOrder leverage input fetchedPrice) Option.none
  else if ¬ hasCreds then
    ExecResult.done { order with status := "rejected" }
      (Option.some "交易所 API Key 未配置，无法实盘下单")
  else
    let symbol := (input.pair.map Char.toUpper).filter (fun c => c ≠ '/')
    if ¬ (input.side = Side.close) then
      if 0 < input.estimatedFill then
        let rawQty := input.stakeUSDT * (leverage : ℚ) / input.estimatedFill
        ExecResult.sendRequest order
          { symbol := symbol, side := "BUY", reduceOnly := false,
            quantity := futuresQuantityPrecision symbol rawQty }
      else
        ExecResult.done { order with status := "rejected" }
          (Option.some "无法计算开仓数量：缺少价格数据")
    else
      if 0 < input.sellQuantity then
        ExecResult.sendRequest order
          { symbol := symbol, side := "SELL", reduceOnly := true,
            quantity := futuresQuantityPrecision symbol input.sellQuantity }
      else
        ExecResult.done { order with status := "rejected" }
          (Option.some "平仓缺少数量参数")


/-! ## Signal agent failure policy (`internal/auth/manager.go`,
`LangChainAgent.Generate` / `fallbackGenerate`).

The LLM call (`model.GenerateContent`) enters as an oracle value
(`LLMCallResult`), and the JSON parser `parseLLMOutput` — whose contract in
the source is `(llmResponse, error)` — enters as an opaque fallible function
parameter; everything downstream of those two effects is embedded. -/

/-- `llmResponse`: the parsed reply structure. -/
structure LLMParsed where
  signal : String
  side : String
  coin : String
  confidence : ℚ
  thinking : String
  reason : String
  justification : String
  ttlSeconds : ℤ
  deriving Repr

/-- One reply choice with the token usage `extractTokenUsage` reads from the
provider metadata. -/
structure LLMChoice where
  content : String
  promptTokens : ℤ
  completionTokens : ℤ
  totalTokens : ℤ
  deriving Repr

/-- Outcome of the `model.GenerateContent` call. -/
inductive LLMCallResult
  | failure (msg : String)
  | success (choices : List LLMChoice)

/-- The signal fields `Generate` fills (ids, pair and timestamps omitted). -/
structure SignalModel where
  side : Side
  confidence : ℚ
  reason : String
  thinking : String
  promptTokens : ℤ
  completionTokens : ℤ
  totalTokens : ℤ
  modelName : String
  ttlSeconds : ℤ
  deriving Repr

/-- `trimReason`.  Go measures and slices bytes; the embedding works at
character granularity, which agrees on the properties in use. -/
def trimReason (reason : String) : String :=
  let clean := reason.trim
  if clean = "" then "模型未给出理由"
  else if clean.length ≤ 500 then clean
  else clean.take 500

/-- `clamp`. -/
def clamp (v lo hi : ℚ) : ℚ :=
  if v < lo then lo
  else if v > hi then hi
  else v

/-- `clampInt`. -/
def clampInt (v lo hi : ℤ) : ℤ :=
  if v < lo then lo
  else if v > hi then hi
  else v

/-- `normalizeSide`: the `side` field wins over `signal`; `buy`-synonyms map
to long, `sell`-synonyms to close, everything else (hold, none, short, junk)
to none. -/
def normalizeSide (side signal : String) : Side :=
  let s := side.trim.toLower
  if s = "long" ∨ s = "buy" ∨ s = "buy_to_enter" then Side.long
  else if s = "close" ∨ s = "sell" ∨ s = "sell_to_exit" then Side.close
  else
    let sig := signal.trim.toLower
    if sig = "long" ∨ sig = "buy" ∨ sig = "buy_to_enter" then Side.long
    else if sig = "close" ∨ sig = "sell" ∨ sig = "sell_to_exit" then Side.close
    else Side.none

/-- `LangChainAgent.fallbackGenerate`: the degraded signal (side none,
confidence 0, model name "fallback", TTL 60) with a `nil` error. -/
def fallbackGenerate (reason : String) : SignalModel × Option String :=
  ({ side := Side.none, confidence := 0,
     reason := "大模型不可用，自动跳过本轮: " ++ trimReason reason,
     thinking := "", promptTokens := 0, completionTokens := 0, totalTokens := 0,
     modelName := "fallback", ttlSeconds := 60 }, Option.none)

/-- `LangChainAgent.Generate` from the model call onward (prompt building
never fails in the source: a failed market fetch falls back to
`buildSimplePrompt`). -/
def LLMGenerate (modelName : String) (call : LLMCallResult)
    (parseLLMOutput : String → Except String LLMParsed) :
    SignalModel × Option String :=
  match call with
  | LLMCallResult.failure msg => fallbackGenerate ("大模型调用失败: " ++ msg)
  | LLMCallResult.success [] => fallbackGenerate "大模型返回空结果"
  | LLMCallResult.success (choice :: _) =>
    match parseLLMOutput choice.content with
    | Except.error e => fallbackGenerate ("解析大模型输出失败: " ++ e)
    | Except.ok parsed =>
      let side := normalizeSide parsed.side parsed.signal
      let confidence0 :=
        if side = Side.none then min parsed.confidence 0.55 else parsed.confidence
      let reason :=
        if parsed.reason = "" then parsed.justification else parsed.reason
      let thinking :=
        if parsed.thinking = "" ∧ parsed.reason.length < parsed.justification.length
        then parsed.justification else parsed.thinking
      ({ side := side, confidence := clamp confidence0 0 1,
         reason := trimReason reason, thinking := thinking,
         promptTokens := choice.promptTokens,
         completionTokens := choice.completionTokens,
         totalTokens := choice.totalTokens, modelName := modelName,
         ttlSeconds := clampInt parsed.ttlSeconds 60 1800 }, Option.none)

/-- A parser oracle that always fails, for concrete instantiations. -/
def parseAlwaysFails : String → Except String LLMParsed :=
  fun _ => Except.error "无JSON"

/-! ## Indicator kit (`internal/market/indicator.go`) -/

/-- The EMA recursion `ema[i] = x[i]*k + ema[i-1]*(1-k)` unrolled along the
tail of the price series. -/
def emaFrom (k prev : ℚ) : List ℚ → List ℚ
  | [] => []
  | x :: xs =>
    let cur := x * k + prev * (1 - k)
    cur :: emaFrom k cur xs

/-- `market.EMA`: nil for an empty series or non-positive period; otherwise
`out[0]` is the simple mean of the first `min period n` values and the rest
follows the exponential recursion with `k = 2/(period+1)`. -/
def EMA (prices : List ℚ) (period : ℕ) : List ℚ :=
  if prices.length = 0 ∨ period = 0 then []
  else
    let k : ℚ := 2 / ((period : ℚ) + 1)
    let seedLen := min period prices.length
    let seed := (prices.take seedLen).sum / (seedLen : ℚ)
    seed :: emaFrom k seed (prices.drop 1)

/-- `market.MACD`: pointwise `EMA(12) - EMA(26)` (the two series always have
the length of the input, so the pointwise loop is a zip). -/
def MACD (prices : List ℚ) : List ℚ :=
  List.zipWith (fun a b => a - b) (EMA prices 12) (EMA prices 26)

/-! ## News-title sanitizer (`sanitizeNewsTitle`, `src/unnamed/part_003`).

Go's `strings.NewReplacer(...).Replace` performs a single left-to-right
scan, replacing non-overlapping occurrences and never rescanning emitted
replacement text.  No pattern in this table is a prefix of another, so at
most one pattern matches at any position and the scan is deterministic. -/

/-- The replacement table of `sanitizeNewsTitle`, in source order. -/
def sanitizePairs : List (List Char × List Char) :=
  [("hack".data, "security incident".data),
   ("Hack".data, "Security Incident".data),
   ("HACK".data, "SECURITY INCIDENT".data),
   ("scam".data, "fraud risk".data),
   ("Scam".data, "Fraud Risk".data),
   ("SCAM".data, "FRAUD RISK".data),
   ("kill".data, "eliminate".data),
   ("Kill".data, "Eliminate".data),
   ("attack".data, "incident".data),
   ("Attack".data, "Incident".data),
   ("bomb".data, "surge".data),
   ("Bomb".data, "Surge".data),
   ("crash".data, "sharp decline".data),
   ("Crash".data, "Sharp Decline".data),
   ("drug".data, "substance".data),
   ("Drug".data, "Substance".data),
   ("terror".data, "risk event".data),
   ("Terror".data, "Risk Event".data),
   ("war".data, "conflict".data),
   ("War".data, "Conflict".data),
   ("weapon".data, "tool".data),
   ("Weapon".data, "Tool".data),
   ("launder".data, "transfer".data),
   ("Launder".data, "Transfer".data),
   ("ponzi".data, "pyramid scheme".data),
   ("Ponzi".data, "Pyramid Scheme".data)]

/-- The pattern (with its substitute) matching at the head of `s`, if any. -/
def findSanitizePair (s : List Char) : Option (List Char × List Char) :=
  sanitizePairs.find? (fun pr => pr.1.isPrefixOf s)

/-- The replacer's single scan, fuelled by the input length (every pattern
in the table is non-empty, so the fuel is never exhausted before the
input). -/
def replaceScan : ℕ → List Char → List Char
  | 0, s => s
  | _ + 1, [] => []
  | n + 1, c :: rest =>
    match findSanitizePair (c :: rest) with
    | Option.some pr => pr.2 ++ replaceScan n ((c :: rest).drop pr.1.length)
    | Option.none => c :: replaceScan n rest

/-- `sanitizeNewsTitle`. -/
def sanitizeNewsTitle (title : List Char) : List Char :=
  replaceScan title.length title

/-- Whether `pat` occurs as a contiguous substring of the argument. -/
def occursIn (pat : List Char) : List Char → Bool
  | [] => pat.isEmpty
  | c :: rest => pat.isPrefixOf (c :: rest) || occursIn pat rest

/-! ## Paginated cycle listing (`SQLiteRepository.ListCycles`,
`src/unnamed/part_002`, and `Handler.listCycles`, `internal/http/server.go`).

The joined row set is modelled as a list of summary rows keyed by the
cycle's `created_at`; `ORDER BY created_at DESC LIMIT ? OFFSET ?` is the
descending sort followed by drop/take. -/

/-- One row of the flattened cycle summary (only the ordering key and the
cycle identity matter to the claims). -/
structure CycleRow where
  cycleID : String
  createdAt : ℤ
  deriving DecidableEq, Repr

/-- The store's effective page parameters: `page` is floored at 1 and a
non-positive `page_size` defaults to 15 — there is no upper bound in the
store.  Returns `(LIMIT, OFFSET)`. -/
def storePage (page pageSize : ℤ) : ℤ × ℤ :=
  let p := if page < 1 then 1 else page
  let ps := if pageSize ≤ 0 then 15 else pageSize
  (ps, (p - 1) * ps)

/-- Descending order on the `created_at` key. -/
def createdDescOrder (a b : CycleRow) : Prop :=
  b.createdAt ≤ a.createdAt

instance : DecidableRel createdDescOrder :=
  fun a b => inferInstanceAs (Decidable (b.createdAt ≤ a.createdAt))

instance : IsTotal CycleRow createdDescOrder :=
  ⟨fun a b => le_total b.createdAt a.createdAt⟩

instance : IsTrans CycleRow createdDescOrder :=
  ⟨fun _ _ _ hab hbc => le_trans hbc hab⟩

/-- `ORDER BY c.created_at DESC`. -/
def sortByCreatedDesc (rows : List CycleRow) : List CycleRow :=
  List.insertionSort createdDescOrder rows

/-- `SQLiteRepository.ListCycles` over the joined row set. -/
def ListCycles (rows : List CycleRow) (page pageSize : ℤ) : List CycleRow :=
  let eff := storePage page pageSize
  ((sortByCreatedDesc rows).drop eff.2.toNat).take eff.1.toNat

/-- `Handler.listCycles` page parsing: default 1, a parsed positive value
wins (`none` models an absent or unparsable query parameter). -/
def handlerPage (q : Option ℤ) : ℤ :=
  match q with
  | Option.some n => if 0 < n then n else 1
  | Option.none => 1

/-- `Handler.listCycles` page-size parsing: default 15, a parsed value wins
only when in (0, 100]. -/
def handlerPageSize (q : Option ℤ) : ℤ :=
  match q with
  | Option.some n => if 0 < n ∧ n ≤ 100 then n else 15
  | Option.none => 15

end AiQuant

/-! # Theorems -/

namespace AiQuant

/-- A `none` signal is always rejected with zero max stake. -/
lemma evaluate_none (a : RiskConfig) (s : SignalState) (p : PortfolioState)
    (h : s.side = Side.none) :
    (Evaluate a s p).approved = false ∧ (Evaluate a s p).maxStakeUSDT = 0 := by
  simp [Evaluate, h]

/-- A `close` signal is approved exactly when its confidence reaches
`min_confidence`, and always carries zero max stake. -/
lemma evaluate_close (a : RiskConfig) (s : SignalState) (p : PortfolioState)
    (h : s.side = Side.close) :
    ((Evaluate a s p).approved = true ↔ a.minConfidence ≤ s.confidence) ∧
    (Evaluate a s p).maxStakeUSDT = 0 := by
  simp only [Evaluate, h]
  by_cases hc : s.confidence < a.minConfidence
  · simp [hc]
  · simp [hc]
    linarith

/-- Approval characterization for a `long` signal. -/
lemma evaluate_long (a : RiskConfig) (s : SignalState) (p : PortfolioState)
    (h : s.side = Side.long) :
    ((Evaluate a s p).approved = true ↔
      (a.minConfidence ≤ s.confidence ∧
       -|a.maxDailyLossUSDT| < p.dailyPnLUSDT ∧
       0 < min a.maxSingleStakeUSDT (a.maxExposureUSDT - p.openExposureUSDT))) ∧
    ((Evaluate a s p).approved = true →
      (Evaluate a s p).maxStakeUSDT =
        min a.maxSingleStakeUSDT (a.maxExposureUSDT - p.openExposureUSDT)) := by
  simp only [Evaluate, h]
  by_cases h1 : s.confidence < a.minConfidence
  · simp only [h1, if_true, reduceCtorEq, if_false]
    simp only [Bool.false_eq_true, false_iff, false_implies, and_true, not_and, not_lt]
    intro hc
    linarith
  · by_cases h2 : p.dailyPnLUSDT ≤ -|a.maxDailyLossUSDT|
    · simp only [h1, h2, if_true, if_false, reduceCtorEq]
      simp only [Bool.false_eq_true, false_iff, false_implies, and_true, not_and, not_lt]
      intro _ hd
      linarith
    · by_cases h3 : a.maxExposureUSDT - p.openExposureUSDT ≤ 0
      · simp only [h1, h2, h3, if_true, if_false, reduceCtorEq]
        simp only [Bool.false_eq_true, false_iff, false_implies, and_true, not_and, not_lt]
        intro _ _
        exact le_trans (min_le_right _ _) h3
      · by_cases h4 : min a.maxSingleStakeUSDT (a.maxExposureUSDT - p.openExposureUSDT) ≤ 0
        · simp only [h1, h2, h3, h4, if_true, if_false, reduceCtorEq]
          simp only [Bool.false_eq_true, false_iff, false_implies, and_true, not_and, not_lt]
          intro _ _
          exact h4
        · constructor
          · constructor
            · intro _
              exact ⟨le_of_not_lt h1, lt_of_not_le h2, lt_of_not_le h4⟩
            · intro _
              simp [Evaluate, h, h1, h2, h3, h4]
          · intro _
            simp [Evaluate, h, h1, h2, h3, h4]

/-- Every rejected decision carries a non-empty reject reason. -/
lemma evaluate_reject_reason (a : RiskConfig) (s : SignalState) (p : PortfolioState)
    (h : (Evaluate a s p).approved = false) :
    (Evaluate a s p).rejectReason ≠ "" := by
  revert h
  simp only [Evaluate]
  split_ifs <;> simp

/-- C1: Risk gate correctness: `Evaluate` never errors; a `none` signal is
rejected with zero max stake; a `close` signal is approved iff its confidence
reaches `min_confidence`, with zero max stake; a `long` signal is approved iff
its confidence reaches `min_confidence`, the daily PnL is strictly above
`-|max_daily_loss|`, and `min(max_single_stake, max_exposure − open_exposure)`
is positive, in which case `max_stake_usdt` equals that minimum (hence is at
most that minimum); every rejection carries a non-empty reject reason. -/
theorem risk_gate_correctness (a : RiskConfig) (s : SignalState) (p : PortfolioState) :
    EvaluateE a s p = Except.ok (Evaluate a s p) ∧
    (s.side = Side.none →
      (Evaluate a s p).approved = false ∧ (Evaluate a s p).maxStakeUSDT = 0) ∧
    (s.side = Side.close →
      ((Evaluate a s p).approved = true ↔ a.minConfidence ≤ s.confidence) ∧
      (Evaluate a s p).maxStakeUSDT = 0) ∧
    (s.side = Side.long →
      ((Evaluate a s p).approved = true ↔
        (a.minConfidence ≤ s.confidence ∧
         -|a.maxDailyLossUSDT| < p.dailyPnLUSDT ∧
         0 < min a.maxSingleStakeUSDT (a.maxExposureUSDT - p.openExposureUSDT))) ∧
      ((Evaluate a s p).approved = true →
        (Evaluate a s p).maxStakeUSDT =
          min a.maxSingleStakeUSDT (a.maxExposureUSDT - p.openExposureUSDT))) ∧
    ((Evaluate a s p).approved = false → (Evaluate a s p).rejectReason ≠ "") :=
  ⟨rfl, evaluate_none a s p, evaluate_close a s p, evaluate_long a s p,
    evaluate_reject_reason a s p⟩

/-- Witness for C1: a concrete long signal (confidence 0.8 against
min-confidence 0.55, zero exposure, zero daily PnL) is approved with max
stake `min 50 200 = 50`. -/
theorem risk_gate_correctness_witness :
    (Evaluate ⟨50, 100, 200, 11/20⟩ ⟨Side.long, 4/5⟩ ⟨0, 0⟩).approved = true ∧
    (Evaluate ⟨50, 100, 200, 11/20⟩ ⟨Side.long, 4/5⟩ ⟨0, 0⟩).maxStakeUSDT = 50 := by
  have h := risk_gate_correctness ⟨50, 100, 200, 11/20⟩ ⟨Side.long, 4/5⟩ ⟨0, 0⟩
  have happ : (Evaluate ⟨50, 100, 200, 11/20⟩ ⟨Side.long, 4/5⟩ ⟨0, 0⟩).approved = true := by
    exact (h.2.2.2.1 rfl).1.mpr (by norm_num)
  refine ⟨happ, ?_⟩
  rw [(h.2.2.2.1 rfl).2 happ]
  norm_num

/-- The pyramid schedule branch of the planner, explicitly. -/
lemma planGenerate_pyramid (c B p : ℚ) (h1 : (0.60 : ℚ) ≤ c) (h2 : c < 0.75) :
    PlanGenerate ⟨Side.long, c, B, p⟩ =
      { side := Side.long, strategy := Strategy.pyramid, totalAmount := B,
        entryLevels := 3,
        batches := generatePyramidStrategy B p,
        takeProfitPercent := 8, stopLossPercent := 3 } := by
  simp [PlanGenerate, selectStrategy, not_le.mpr h2, h1, generatePyramidStrategy]

/-- The grid schedule branch of the planner, explicitly. -/
lemma planGenerate_grid (c B p : ℚ) (h2 : c < 0.60) :
    PlanGenerate ⟨Side.long, c, B, p⟩ =
      { side := Side.long, strategy := Strategy.grid, totalAmount := B,
        entryLevels := 5,
        batches := generateGridStrategy B p,
        takeProfitPercent := 10, stopLossPercent := 4 } := by
  have h1 : c < 0.75 := lt_trans h2 (by norm_num)
  simp [PlanGenerate, selectStrategy, not_le.mpr h2, not_le.mpr h1, generateGridStrategy]

/-- The grid batch list written out. -/
lemma generateGridStrategy_eq (B p : ℚ) :
    generateGridStrategy B p =
      [⟨1, p, B / 5, 20, "pending"⟩,
       ⟨2, p * 0.99, B / 5, 20, "pending"⟩,
       ⟨3, p * 0.98, B / 5, 20, "pending"⟩,
       ⟨4, p * 0.97, B / 5, 20, "pending"⟩,
       ⟨5, p * 0.96, B / 5, 20, "pending"⟩] := by
  simp only [generateGridStrategy, List.range_succ, List.range_zero, List.map_append,
    List.map_cons, List.map_nil, List.nil_append, List.cons_append,
    PositionBatch.mk.injEq, List.cons.injEq, and_true, List.append_nil]
  norm_num

/-- C2: the planner's schedule: tier selection by confidence (full at
`c ≥ 0.75`, pyramid at `0.60 ≤ c < 0.75`, grid at `c < 0.60`) with the
batch amounts, trigger prices, TP/SL of the table; in every tier the batch
amounts sum to the budget exactly (hence within 1e-6), the percentages sum
to 100, batch numbers run 1..N in order, and every batch is pending. -/
theorem position_planner_schedule (c B p : ℚ) :
    ((0.75 : ℚ) ≤ c →
      PlanGenerate ⟨Side.long, c, B, p⟩ =
        { side := Side.long, strategy := Strategy.full, totalAmount := B,
          entryLevels := 1,
          batches := [⟨1, p, B, 100, "pending"⟩],
          takeProfitPercent := 5, stopLossPercent := 2 }) ∧
    ((0.60 : ℚ) ≤ c → c < 0.75 →
      PlanGenerate ⟨Side.long, c, B, p⟩ =
        { side := Side.long, strategy := Strategy.pyramid, totalAmount := B,
          entryLevels := 3,
          batches := [⟨1, p, B * 0.50, 50, "pending"⟩,
                      ⟨2, p * 0.98, B * 0.30, 30, "pending"⟩,
                      ⟨3, p * 0.96, B * 0.20, 20, "pending"⟩],
          takeProfitPercent := 8, stopLossPercent := 3 }) ∧
    (c < 0.60 →
      PlanGenerate ⟨Side.long, c, B, p⟩ =
        { side := Side.long, strategy := Strategy.grid, totalAmount := B,
          entryLevels := 5,
          batches := [⟨1, p, B / 5, 20, "pending"⟩,
                      ⟨2, p * 0.99, B / 5, 20, "pending"⟩,
                      ⟨3, p * 0.98, B / 5, 20, "pending"⟩,
                      ⟨4, p * 0.97, B / 5, 20, "pending"⟩,
                      ⟨5, p * 0.96, B / 5, 20, "pending"⟩],
          takeProfitPercent := 10, stopLossPercent := 4 }) ∧
    ((PlanGenerate ⟨Side.long, c, B, p⟩).batches.map PositionBatch.amount).sum = B ∧
    ((PlanGenerate ⟨Side.long, c, B, p⟩).batches.map PositionBatch.percentage).sum = 100 ∧
    (PlanGenerate ⟨Side.long, c, B, p⟩).batches.map PositionBatch.batchNo =
      List.range' 1 (PlanGenerate ⟨Side.long, c, B, p⟩).batches.length ∧
    (∀ b ∈ (PlanGenerate ⟨Side.long, c, B, p⟩).batches, b.status = "pending") := by
  by_cases hf : (0.75 : ℚ) ≤ c
  · have hgen : PlanGenerate ⟨Side.long, c, B, p⟩ =
        { side := Side.long, strategy := Strategy.full, totalAmount := B,
          entryLevels := 1, batches := [⟨1, p, B, 100, "pending"⟩],
          takeProfitPercent := 5, stopLossPercent := 2 } := by
      simp [PlanGenerate, selectStrategy, hf, generateFullStrategy]
    refine ⟨fun _ => hgen, fun _ hlt => absurd hf (not_le.mpr hlt), fun hlt => ?_, ?_⟩
    · exact absurd hf (not_le.mpr (lt_trans hlt (by norm_num)))
    · rw [hgen]
      refine ⟨by simp, by simp, by simp [List.range'], ?_⟩
      intro b hb
      simp only [List.mem_singleton] at hb
      subst hb
      rfl
  · by_cases hp : (0.60 : ℚ) ≤ c
    · have hgen := planGenerate_pyramid c B p hp (not_le.mp hf)
      rw [generatePyramidStrategy] at hgen
      refine ⟨fun h75 => absurd h75 hf, fun _ _ => hgen, fun hlt => absurd hp (not_le.mpr hlt), ?_⟩
      rw [hgen]
      refine ⟨by simp; ring, by simp; norm_num, by simp [List.range'], ?_⟩
      intro b hb
      fin_cases hb <;> rfl
    · have hgen := planGenerate_grid c B p (not_le.mp hp)
      rw [generateGridStrategy_eq] at hgen
      refine ⟨fun h75 => absurd h75 hf, fun h60 _ => absurd h60 hp, fun _ => hgen, ?_⟩
      rw [hgen]
      refine ⟨by simp; ring, by simp; norm_num, by simp [List.range'], ?_⟩
      intro b hb
      fin_cases hb <;> rfl

/-- Witness for C2 at the spec's scenario S3: confidence 0.65, budget 50,
price 100 yields the pyramid schedule 25/15/10 at triggers 100/98/96. -/
theorem position_planner_schedule_witness :
    PlanGenerate ⟨Side.long, 0.65, 50, 100⟩ =
      { side := Side.long, strategy := Strategy.pyramid, totalAmount := 50,
        entryLevels := 3,
        batches := [⟨1, 100, 25, 50, "pending"⟩,
                    ⟨2, 98, 15, 30, "pending"⟩,
                    ⟨3, 96, 10, 20, "pending"⟩],
        takeProfitPercent := 8, stopLossPercent := 3 } := by
  have h := (position_planner_schedule 0.65 50 100).2.1 (by norm_num) (by norm_num)
  rw [h]
  norm_num

/-- With positive fill fields, the dispatch reduces to the two branch
functions. -/
lemma updateHolding_eq_branches (h : Holding) (fp fq : ℚ)
    (hfp : 0 < fp) (hfq : 0 < fq) :
    UpdateHoldingAfterTrade (Option.some h) ⟨Side.long, fp, fq⟩ =
      Option.some (longUpdate h ⟨Side.long, fp, fq⟩) ∧
    UpdateHoldingAfterTrade (Option.some h) ⟨Side.close, fp, fq⟩ =
      Option.some (closeUpdate h ⟨Side.close, fp, fq⟩) := by
  have hguard : ¬(fp ≤ 0 ∨ fq ≤ 0) := by
    push_neg
    exact ⟨hfp, hfq⟩
  constructor
  · simp [UpdateHoldingAfterTrade, hguard]
  · simp [UpdateHoldingAfterTrade, hguard]

/-- Partial close: the stored average becomes exactly old cost / old
quantity. -/
lemma closeUpdate_partialSell (h : Holding) (order : OrderFill)
    (hfq : 0 < order.filledQuantity) (hlt : order.filledQuantity < h.quantity) :
    (closeUpdate h order).quantity = h.quantity - order.filledQuantity ∧
    (closeUpdate h order).avgPrice = h.totalCost / h.quantity := by
  have hq0 : 0 < h.quantity := lt_trans hfq hlt
  have hqne : h.quantity ≠ 0 := ne_of_gt hq0
  have hrat : ¬ order.filledQuantity / h.quantity > 1 := by
    rw [gt_iff_lt, not_lt, div_le_one hq0]
    exact le_of_lt hlt
  have hnn : ¬ h.quantity - order.filledQuantity < 0 := by linarith
  have hpos : h.quantity - order.filledQuantity > 0 := by linarith
  constructor
  · simp [closeUpdate, hqne, hrat, hnn]
  · simp only [closeUpdate, hqne, if_false, hrat, hnn, hpos, if_true]
    rw [div_eq_div_iff (by linarith) hqne]
    field_simp
    try ring

/-- Full close (fill at least the held quantity, quantity non-negative):
everything zeroes. -/
lemma closeUpdate_full (h : Holding) (order : OrderFill)
    (hq : 0 ≤ h.quantity) (hfq : 0 < order.filledQuantity)
    (hge : h.quantity ≤ order.filledQuantity) :
    closeUpdate h order = { quantity := 0, avgPrice := 0, totalCost := 0 } := by
  by_cases hq0 : h.quantity = 0
  · have hneg : h.quantity - order.filledQuantity < 0 := by
      rw [hq0]
      linarith
    simp [closeUpdate, hq0, hneg]
    all_goals
      intro hle
    all_goals
      linarith
  · have hqpos : 0 < h.quantity := lt_of_le_of_ne hq (Ne.symm hq0)
    by_cases heq : order.filledQuantity = h.quantity
    · have hrat : ¬ order.filledQuantity / h.quantity > 1 := by
        rw [heq, div_self (ne_of_gt hqpos)]
        exact lt_irrefl 1
      have hnn : ¬ h.quantity - order.filledQuantity < 0 := by linarith [le_of_eq heq]
      have hzero : h.quantity - order.filledQuantity = 0 := by
        rw [heq]
        ring
      simp [closeUpdate, hq0, hrat, hnn, hzero, heq, div_self (ne_of_gt hqpos)]
    · have hlt : h.quantity < order.filledQuantity := lt_of_le_of_ne hge fun e => heq e.symm
      have hrat : order.filledQuantity / h.quantity > 1 := by
        rw [gt_iff_lt, lt_div_iff₀ hqpos]
        linarith
      have hneg : h.quantity - order.filledQuantity < 0 := by linarith
      simp [closeUpdate, hq0, hrat, hneg]

/-- C3: holdings reconciliation algebra for fills against an existing
holding with positive price and quantity: a long adds `filled_qty` to the
quantity and `filled_qty * filled_price` to the cost, with the average
recomputed as cost/qty (so the cost delta is exactly the notional, exact
over ℚ); a partial close (fill strictly below the held quantity) sets the
average to old cost / old quantity, hence leaves it unchanged for every
holding satisfying the maintained invariant `avg = cost / qty`; a close with
fill at least the (non-negative) held quantity zeroes quantity, cost and
average. -/
theorem holdings_reconciliation (h : Holding) (fp fq : ℚ)
    (hq : 0 ≤ h.quantity) (hfp : 0 < fp) (hfq : 0 < fq) :
    (UpdateHoldingAfterTrade (Option.some h) ⟨Side.long, fp, fq⟩ =
      Option.some { quantity := h.quantity + fq,
                    avgPrice := (h.totalCost + fq * fp) / (h.quantity + fq),
                    totalCost := h.totalCost + fq * fp }) ∧
    (fq < h.quantity →
      ∃ h' : Holding,
        UpdateHoldingAfterTrade (Option.some h) ⟨Side.close, fp, fq⟩ = Option.some h' ∧
        h'.quantity = h.quantity - fq ∧
        h'.avgPrice = h.totalCost / h.quantity ∧
        (h.avgPrice = h.totalCost / h.quantity → h'.avgPrice = h.avgPrice)) ∧
    (h.quantity ≤ fq →
      UpdateHoldingAfterTrade (Option.some h) ⟨Side.close, fp, fq⟩ =
        Option.some { quantity := 0, avgPrice := 0, totalCost := 0 }) := by
  obtain ⟨hbl, hbc⟩ := updateHolding_eq_branches h fp fq hfp hfq
  refine ⟨?_, ?_, ?_⟩
  · rw [hbl]
    rfl
  · intro hlt
    obtain ⟨hqty, havg⟩ := closeUpdate_partialSell h ⟨Side.close, fp, fq⟩ hfq hlt
    exact ⟨_, hbc, hqty, havg, fun hinv => by rw [havg, hinv]⟩
  · intro hge
    rw [hbc, closeUpdate_full h ⟨Side.close, fp, fq⟩ hq hfq hge]

/-- Witness for C3: buying 500 units at 0.10 into a holding of 100 units
costing 10 yields 600 units costing 60 at average 0.10; and a full sell of a
5-unit holding zeroes it. -/
theorem holdings_reconciliation_witness :
    UpdateHoldingAfterTrade (Option.some ⟨100, 1/10, 10⟩) ⟨Side.long, 1/10, 500⟩ =
      Option.some { quantity := 600, avgPrice := 1/10, totalCost := 60 } ∧
    UpdateHoldingAfterTrade (Option.some ⟨5, 2, 10⟩) ⟨Side.close, 3, 7⟩ =
      Option.some { quantity := 0, avgPrice := 0, totalCost := 0 } := by
  constructor
  · have h := (holdings_reconciliation ⟨100, 1/10, 10⟩ (1/10) 500
      (by norm_num) (by norm_num) (by norm_num)).1
    rw [h]
    norm_num
  · exact (holdings_reconciliation ⟨5, 2, 10⟩ 3 7
      (by norm_num) (by norm_num) (by norm_num)).2.2 (by norm_num)

end AiQuant

namespace AiQuant

/-- C5: futures open sizing: in live futures mode a long with positive
`estimated_fill` sends a BUY whose quantity is
`floor_to_precision(stake * leverage / estimated_fill)` under the futures
precision table (ETH/BTC 3 decimals, DOGE 0, XRP 1, BNB/SOL 2, default 2);
a non-positive `estimated_fill` yields a rejected order and no request. -/
theorem futures_open_sizing (lev : ℕ) (input : ExecInput) (fp : Option ℚ)
    (hside : input.side = Side.long) :
    (0 < input.estimatedFill →
      futuresExecute false true lev input fp =
        ExecResult.sendRequest
          { side := input.side, stakeUSDT := input.stakeUSDT, leverage := lev,
            status := "created", filledPrice := 0, filledQuantity := 0 }
          { symbol := (input.pair.map Char.toUpper).filter (fun c => c ≠ '/'),
            side := "BUY", reduceOnly := false,
            quantity := futuresQuantityPrecision
              ((input.pair.map Char.toUpper).filter (fun c => c ≠ '/'))
              (input.stakeUSDT * (lev : ℚ) / input.estimatedFill) }) ∧
    (input.estimatedFill ≤ 0 →
      futuresExecute false true lev input fp =
        ExecResult.done
          { side := input.side, stakeUSDT := input.stakeUSDT, leverage := lev,
            status := "rejected", filledPrice := 0, filledQuantity := 0 }
          (Option.some "无法计算开仓数量：缺少价格数据")) ∧
    futuresQuantityDecimals "ETHUSDT".data = 3 ∧
    futuresQuantityDecimals "BTCUSDT".data = 3 ∧
    futuresQuantityDecimals "DOGEUSDT".data = 0 ∧
    futuresQuantityDecimals "XRPUSDT".data = 1 ∧
    futuresQuantityDecimals "BNBUSDT".data = 2 ∧
    futuresQuantityDecimals "SOLUSDT".data = 2 ∧
    futuresQuantityDecimals "LINKUSDT".data = 2 ∧
    ∀ q : ℚ, ∀ sym : List Char,
      futuresQuantityPrecision sym q =
        (⌊q * 10 ^ futuresQuantityDecimals sym⌋ : ℚ) / 10 ^ futuresQuantityDecimals sym := by
  refine ⟨?_, ?_, by decide, by decide, by decide, by decide, by decide, by decide, by decide,
    fun q sym => rfl⟩
  · intro hpos
    simp [futuresExecute, hside, hpos]
  · intro hle
    simp [futuresExecute, hside, not_lt.mpr hle]

/-- Witness for C5 at the spec's scenario S5: leverage 5, stake 20, price
50, ETH/USDT: quantity `floor(20·5/50, 3dp) = 2`. -/
theorem futures_open_sizing_witness :
    futuresExecute false true 5 ⟨"ETH/USDT".data, Side.long, 20, 50, 0⟩ Option.none =
      ExecResult.sendRequest
        { side := Side.long, stakeUSDT := 20, leverage := 5,
          status := "created", filledPrice := 0, filledQuantity := 0 }
        { symbol := "ETHUSDT".data, side := "BUY", reduceOnly := false,
          quantity := 2 } := by
  have h := (futures_open_sizing 5 ⟨"ETH/USDT".data, Side.long, 20, 50, 0⟩
    Option.none rfl).1 (by norm_num)
  have hsym : (("ETH/USDT".data).map Char.toUpper).filter (fun c => c ≠ '/') =
      "ETHUSDT".data := by decide
  rw [h]
  simp only [hsym]
  have hdec : futuresQuantityDecimals "ETHUSDT".data = 3 := by decide
  have hq : futuresQuantityPrecision "ETHUSDT".data (20 * ((5 : ℕ) : ℚ) / 50) = 2 := by
    simp only [futuresQuantityPrecision, hdec]
    norm_num [floorToDecimals]
  simp only [hq]

end AiQuant

namespace AiQuant

/-- C4 counterexample: live spot sell of 0.5 XRP: the quantity floors to 0.5
(1 decimal), which is below XRP's minimum quantity 1, yet `Execute` does not
reject — it proceeds to send the exchange order request with quantity 0.5. -/
theorem spot_dust_rejection_counterexample :
    spotExecute false true ⟨"XRP/USDT".data, Side.close, 10, 0, 1/2⟩ Option.none =
      ExecResult.sendRequest
        { side := Side.close, stakeUSDT := 10, leverage := 0,
          status := "created", filledPrice := 0, filledQuantity := 0 }
        { symbol := "XRPUSDT".data, side := "SELL",
          quantity := Option.some (1/2), quoteOrderQty := Option.none } ∧
    quantityPrecision "XRPUSDT".data (1/2) < getMinQuantity "XRPUSDT".data := by
  have hsym : pairToSymbol "XRP/USDT".data = "XRPUSDT".data := by decide
  have hdec : spotQuantityDecimals "XRPUSDT".data = 1 := by decide
  have hqp : quantityPrecision "XRPUSDT".data ((1 : ℚ)/2) = 1/2 := by
    simp only [quantityPrecision, hdec, floorToDecimals]
    norm_num
  have hmin : getMinQuantity "XRPUSDT".data = 1 := by decide
  constructor
  · simp only [spotExecute, hsym, hqp]
    norm_num
  · rw [hqp, hmin]
    norm_num

/-- C4 (amended): in live spot mode a sell with positive quantity is
rejected as dust — with no request sent — exactly when the quantity floored
to the instrument's step-size decimals is ≤ 0 (the source compares the
formatted quantity against 0, not against the instrument minimum); a
positive floored quantity is always sent, even when below the minimum.  For
DOGE-prefixed symbols (0 decimals, minimum 1) the two criteria coincide, so
the dust rejection there is equivalent to being below the minimum. -/
theorem spot_dust_rejection (input : ExecInput) (fp : Option ℚ)
    (hside : input.side = Side.close) (hqty : 0 < input.sellQuantity) :
    (quantityPrecision (pairToSymbol input.pair) input.sellQuantity ≤ 0 →
      spotExecute false true input fp =
        ExecResult.done
          { side := input.side, stakeUSDT := input.stakeUSDT, leverage := 0,
            status := "rejected", filledPrice := 0, filledQuantity := 0 }
          (Option.some "卖出数量不足，低于最小交易量（灰尘持仓无法交易）")) ∧
    (0 < quantityPrecision (pairToSymbol input.pair) input.sellQuantity →
      spotExecute false true input fp =
        ExecResult.sendRequest
          { side := input.side, stakeUSDT := input.stakeUSDT, leverage := 0,
            status := "created", filledPrice := 0, filledQuantity := 0 }
          { symbol := pairToSymbol input.pair, side := "SELL",
            quantity := Option.some
              (quantityPrecision (pairToSymbol input.pair) input.sellQuantity),
            quoteOrderQty := Option.none }) ∧
    ("DOGE".data.isPrefixOf ((pairToSymbol input.pair).map Char.toUpper) = true →
      (quantityPrecision (pairToSymbol input.pair) input.sellQuantity ≤ 0 ↔
        quantityPrecision (pairToSymbol input.pair) input.sellQuantity <
          getMinQuantity (pairToSymbol input.pair))) := by
  refine ⟨?_, ?_, ?_⟩
  · intro hle
    simp [spotExecute, hside, hqty, hle]
  · intro hpos
    simp [spotExecute, hside, hqty, not_le.mpr hpos]
  · intro hd
    have hdec : spotQuantityDecimals (pairToSymbol input.pair) = 0 := by
      simp [spotQuantityDecimals, hd]
    have hmin : getMinQuantity (pairToSymbol input.pair) = 1 := by
      simp [getMinQuantity, hd]
    rw [hmin]
    simp only [quantityPrecision, hdec, floorToDecimals, pow_zero, mul_one, div_one]
    have hiff : ⌊input.sellQuantity⌋ ≤ 0 ↔ ⌊input.sellQuantity⌋ < 1 := by omega
    exact_mod_cast hiff

/-- Witness for C4 at the spec's scenario S6: a DOGE sell of 0.7 floors to 0
and is rejected as dust with no request sent. -/
theorem spot_dust_rejection_witness :
    spotExecute false true ⟨"DOGE/USDT".data, Side.close, 10, 0, 7/10⟩ Option.none =
      ExecResult.done
        { side := Side.close, stakeUSDT := 10, leverage := 0,
          status := "rejected", filledPrice := 0, filledQuantity := 0 }
        (Option.some "卖出数量不足，低于最小交易量（灰尘持仓无法交易）") := by
  have hdec : spotQuantityDecimals (pairToSymbol "DOGE/USDT".data) = 0 := by decide
  have hqp : quantityPrecision (pairToSymbol "DOGE/USDT".data) ((7 : ℚ)/10) ≤ 0 := by
    simp only [quantityPrecision, hdec, floorToDecimals]
    norm_num
  exact (spot_dust_rejection ⟨"DOGE/USDT".data, Side.close, 10, 0, 7/10⟩ Option.none
    rfl (by norm_num)).1 hqp

/-- C10 counterexample: spot dry-run, side long, estimated_fill −2 (no
positive price obtainable: the ticker fetch fails), sell_quantity 3: the
order is simulated_filled but carries filled_price −2 (not 0) and
filled_qty 3 (not 0). -/
theorem dryrun_execution_counterexample :
    spotExecute true false ⟨"XRP/USDT".data, Side.long, 10, -2, 3⟩ Option.none =
      ExecResult.done
        { side := Side.long, stakeUSDT := 10, leverage := 0,
          status := "simulated_filled", filledPrice := -2, filledQuantity := 3 }
        Option.none ∧
    (-2 : ℚ) ≠ 0 ∧ (3 : ℚ) ≠ 0 := by
  refine ⟨?_, by norm_num, by norm_num⟩
  simp only [spotExecute, spotDryRunOrder, dryRunFill]
  norm_num

/-- C10 (amended): dry-run execution is total for both executors: for every
input — credentials or not — the result is a `simulated_filled` order with a
nil error and no signed order request; when a long cannot obtain a positive
price (non-positive `estimated_fill` and no positive fetched price), the
order's filled_price equals the given `estimated_fill` (0 exactly when the
input hint was 0) and its filled_qty is `sell_quantity` when that is
positive and 0 otherwise. -/
theorem dryrun_execution_total (hasCreds : Bool) (lev : ℕ) (input : ExecInput)
    (fp : Option ℚ) :
    spotExecute true hasCreds input fp =
      ExecResult.done (spotDryRunOrder input fp) Option.none ∧
    (spotDryRunOrder input fp).status = "simulated_filled" ∧
    futuresExecute true hasCreds lev input fp =
      ExecResult.done (futuresDryRunOrder lev input fp) Option.none ∧
    (futuresDryRunOrder lev input fp).status = "simulated_filled" ∧
    (input.estimatedFill ≤ 0 → (∀ pr, fp = Option.some pr → pr ≤ 0) →
      ((spotDryRunOrder input fp).filledPrice = input.estimatedFill ∧
       (futuresDryRunOrder lev input fp).filledPrice = input.estimatedFill ∧
       (spotDryRunOrder input fp).filledQuantity =
         (if 0 < input.sellQuantity then input.sellQuantity else 0) ∧
       (futuresDryRunOrder lev input fp).filledQuantity =
         (if 0 < input.sellQuantity then input.sellQuantity else 0))) := by
  have hdf : input.estimatedFill ≤ 0 → (∀ pr, fp = Option.some pr → pr ≤ 0) →
      dryRunFill input.estimatedFill fp = input.estimatedFill := by
    intro hle hfp
    unfold dryRunFill
    cases fp with
    | none => simp [hle]
    | some pr =>
      have := hfp pr rfl
      simp [hle, not_lt.mpr this]
  refine ⟨by simp [spotExecute], rfl, by simp [futuresExecute], rfl, ?_⟩
  intro hle hfp
  have h := hdf hle hfp
  have hneg : ¬ (0 < input.estimatedFill ∧ input.side = Side.long) := by
    intro hc
    exact absurd hc.1 (not_lt.mpr hle)
  refine ⟨?_, ?_, ?_, ?_⟩
  · show dryRunFill input.estimatedFill fp = input.estimatedFill
    exact h
  · show dryRunFill input.estimatedFill fp = input.estimatedFill
    exact h
  · show (if 0 < dryRunFill input.estimatedFill fp ∧ input.side = Side.long
        then input.stakeUSDT / dryRunFill input.estimatedFill fp
        else if 0 < input.sellQuantity then input.sellQuantity else 0) = _
    rw [h, if_neg hneg]
  · show (if 0 < dryRunFill input.estimatedFill fp ∧ input.side = Side.long
        then input.stakeUSDT * (lev : ℚ) / dryRunFill input.estimatedFill fp
        else if 0 < input.sellQuantity then input.sellQuantity else 0) = _
    rw [h, if_neg hneg]

/-- Witness for C10: a dry-run spot long (no credentials, no price
obtainable, sell_quantity 3) is simulated_filled with filled_qty 3. -/
theorem dryrun_execution_total_witness :
    spotExecute true false ⟨"DOGE/USDT".data, Side.long, 50, 0, 3⟩ Option.none =
      ExecResult.done
        (spotDryRunOrder ⟨"DOGE/USDT".data, Side.long, 50, 0, 3⟩ Option.none)
        Option.none ∧
    (spotDryRunOrder ⟨"DOGE/USDT".data, Side.long, 50, 0, 3⟩ Option.none).filledQuantity
      = 3 := by
  have h := dryrun_execution_total false 3
    ⟨"DOGE/USDT".data, Side.long, 50, 0, 3⟩ Option.none
  refine ⟨h.1, ?_⟩
  have himp := (h.2.2.2.2 le_rfl (fun pr hpr => by cases hpr)).2.2.1
  rw [himp]
  norm_num

end AiQuant

namespace AiQuant

/-- C6: signal-agent failure policy: whenever the LLM path fails — the model
call errors, the model returns no choices, or the reply does not parse — the
agent returns without error a signal with side none, confidence 0, model
name "fallback", and a reason prefixed by the operator-facing explanation. -/
theorem signal_agent_failure_policy (modelName : String) (call : LLMCallResult)
    (parse : String → Except String LLMParsed)
    (hfail : (∃ msg, call = LLMCallResult.failure msg) ∨
             call = LLMCallResult.success [] ∨
             (∃ choice rest e, call = LLMCallResult.success (choice :: rest) ∧
               parse choice.content = Except.error e)) :
    (LLMGenerate modelName call parse).2 = Option.none ∧
    (LLMGenerate modelName call parse).1.side = Side.none ∧
    (LLMGenerate modelName call parse).1.confidence = 0 ∧
    (LLMGenerate modelName call parse).1.modelName = "fallback" ∧
    ∃ rest, (LLMGenerate modelName call parse).1.reason =
      "大模型不可用，自动跳过本轮: " ++ rest := by
  rcases hfail with ⟨msg, rfl⟩ | rfl | ⟨choice, rest, e, rfl, hperr⟩
  · exact ⟨rfl, rfl, rfl, rfl, _, rfl⟩
  · exact ⟨rfl, rfl, rfl, rfl, _, rfl⟩
  · simp only [LLMGenerate, hperr]
    exact ⟨rfl, rfl, rfl, rfl, _, rfl⟩

/-- Witness for C6: a timed-out model call degrades to the fallback
signal. -/
theorem signal_agent_failure_policy_witness :
    (LLMGenerate "gpt-4o-mini" (LLMCallResult.failure "timeout")
      parseAlwaysFails).1.modelName = "fallback" ∧
    (LLMGenerate "gpt-4o-mini" (LLMCallResult.failure "timeout")
      parseAlwaysFails).1.side = Side.none ∧
    (LLMGenerate "gpt-4o-mini" (LLMCallResult.failure "timeout")
      parseAlwaysFails).2 = Option.none := by
  have h := signal_agent_failure_policy "gpt-4o-mini"
    (LLMCallResult.failure "timeout") parseAlwaysFails (Or.inl ⟨"timeout", rfl⟩)
  exact ⟨h.2.2.2.1, h.2.1, h.1⟩

/-- The EMA recursion started at the constant value stays at it. -/
lemma emaFrom_const (k v : ℚ) : ∀ (xs : List ℚ), (∀ x ∈ xs, x = v) →
    emaFrom k v xs = List.replicate xs.length v
  | [], _ => rfl
  | x :: rest, hxs => by
    have hx : x = v := hxs x (List.mem_cons_self x rest)
    have hcur : x * k + v * (1 - k) = v := by
      rw [hx]
      ring
    show (x * k + v * (1 - k)) :: emaFrom k (x * k + v * (1 - k)) rest = _
    rw [hcur, List.length_cons, List.replicate_succ]
    exact congrArg (v :: ·)
      (emaFrom_const k v rest (fun y hy => hxs y (List.mem_cons_of_mem _ hy)))

/-- EMA of a constant non-empty series is that constant at every index. -/
lemma EMA_const (prices : List ℚ) (v : ℚ) (period : ℕ)
    (hne : prices ≠ []) (hv : ∀ x ∈ prices, x = v) (hp : 1 ≤ period) :
    EMA prices period = List.replicate prices.length v := by
  have hlen : prices.length ≠ 0 := fun h => hne (List.length_eq_zero.mp h)
  have hper : period ≠ 0 := by omega
  have hpos : 0 < prices.length := Nat.pos_of_ne_zero hlen
  have hmpos : 0 < min period prices.length := lt_min_iff.mpr ⟨by omega, hpos⟩
  have hmne : ((min period prices.length : ℕ) : ℚ) ≠ 0 := by
    exact_mod_cast Nat.pos_iff_ne_zero.mp hmpos
  have hseed : (prices.take (min period prices.length)).sum /
      ((min period prices.length : ℕ) : ℚ) = v := by
    have hmem : ∀ x ∈ prices.take (min period prices.length), x = v :=
      fun x hx => hv x (List.mem_of_mem_take hx)
    rw [List.sum_eq_card_nsmul _ v hmem, List.length_take, nsmul_eq_mul]
    rw [min_eq_left (min_le_right period prices.length)]
    exact mul_div_cancel_left₀ v hmne
  have hdrop : emaFrom (2 / ((period : ℚ) + 1))
      ((prices.take (min period prices.length)).sum /
        ((min period prices.length : ℕ) : ℚ)) (prices.drop 1) =
      List.replicate (prices.drop 1).length v := by
    rw [hseed]
    exact emaFrom_const _ v (prices.drop 1)
      (fun y hy => hv y (List.mem_of_mem_drop hy))
  unfold EMA
  rw [if_neg (by push_neg; exact ⟨hlen, hper⟩)]
  show _ :: emaFrom _ _ _ = _
  rw [hdrop, hseed, List.length_drop]
  have hlen1 : prices.length - 1 + 1 = prices.length := Nat.succ_pred_eq_of_pos hpos
  rw [← List.replicate_succ, hlen1]

/-- Pointwise difference of equal constant series is the zero series. -/
lemma zipWith_sub_self_replicate (n : ℕ) (v : ℚ) :
    List.zipWith (fun a b => a - b) (List.replicate n v) (List.replicate n v) =
      List.replicate n 0 := by
  induction n with
  | zero => rfl
  | succ m ih => simp [List.replicate_succ, ih]

/-- C7: indicator constants: on a non-empty all-constant price series, EMA
with any period ≥ 1 returns the constant at every index (same length), and
MACD is identically zero. -/
theorem indicator_constant_series (prices : List ℚ) (v : ℚ)
    (hne : prices ≠ []) (hv : ∀ x ∈ prices, x = v) :
    (∀ period : ℕ, 1 ≤ period →
      EMA prices period = List.replicate prices.length v) ∧
    MACD prices = List.replicate prices.length 0 := by
  refine ⟨fun p hp => EMA_const prices v p hne hv hp, ?_⟩
  unfold MACD
  rw [EMA_const prices v 12 hne hv (by omega), EMA_const prices v 26 hne hv (by omega)]
  exact zipWith_sub_self_replicate _ v

/-- Witness for C7: the constant series [3, 3, 3]. -/
theorem indicator_constant_series_witness :
    EMA [3, 3, 3] 2 = [3, 3, 3] ∧ MACD [3, 3, 3] = [0, 0, 0] := by
  have h := indicator_constant_series [3, 3, 3] 3 (by simp)
    (by intro x hx; fin_cases hx <;> rfl)
  constructor
  · rw [h.1 2 (by omega)]
    rfl
  · rw [h.2]
    rfl

end AiQuant

namespace AiQuant

/-- Splitting a no-occurrence fact at a cons cell. -/
lemma occursIn_false_cons {pat : List Char} {c : Char} {rest : List Char}
    (h : occursIn pat (c :: rest) = false) :
    pat.isPrefixOf (c :: rest) = false ∧ occursIn pat rest = false := by
  have := h
  rw [occursIn] at this
  exact ⟨by cases hp : pat.isPrefixOf (c :: rest) <;> simp_all,
         by cases ho : occursIn pat rest <;> simp_all⟩

/-- When no pattern of the table occurs anywhere in `s`, the replacer scan
is the identity (for any fuel). -/
lemma replaceScan_no_match (n : ℕ) : ∀ (s : List Char),
    (∀ pr ∈ sanitizePairs, occursIn pr.1 s = false) → replaceScan n s = s := by
  induction n with
  | zero =>
    intro s _
    rfl
  | succ m ih =>
    intro s hs
    cases s with
    | nil => rfl
    | cons c rest =>
      have hfind : findSanitizePair (c :: rest) = Option.none := by
        rw [findSanitizePair, List.find?_eq_none]
        intro pr hpr
        have := (occursIn_false_cons (hs pr hpr)).1
        simp [this]
      simp only [replaceScan, hfind]
      exact congrArg (c :: ·)
        (ih rest (fun pr hpr => (occursIn_false_cons (hs pr hpr)).2))

/-- C8 counterexample: the sanitizer is not idempotent.  On "attackerror"
the first pass replaces "attack" with "incident", and the juxtaposition
"incident"+"error" contains the pattern "terror", which a second pass
rewrites to "risk event". -/
theorem sanitizer_idempotence_counterexample :
    sanitizeNewsTitle "attackerror".data = "incidenterror".data ∧
    sanitizeNewsTitle (sanitizeNewsTitle "attackerror".data) =
      "incidenrisk event".data ∧
    sanitizeNewsTitle (sanitizeNewsTitle "attackerror".data) ≠
      sanitizeNewsTitle "attackerror".data := by
  refine ⟨by decide, by decide, by decide⟩

/-- C8 (amended): the sanitizer is idempotent exactly on the titles whose
sanitized form contains no occurrence of any replaced term: a second pass
over such output is the identity.  (In general a substitute can juxtapose
with adjacent text to re-form a replaced term, so idempotence fails.) -/
theorem sanitizer_conditional_idempotence (title : List Char)
    (hclean : ∀ pr ∈ sanitizePairs,
      occursIn pr.1 (sanitizeNewsTitle title) = false) :
    sanitizeNewsTitle (sanitizeNewsTitle title) = sanitizeNewsTitle title :=
  replaceScan_no_match _ _ hclean

/-- Witness for C8: "buy bitcoin" sanitizes to itself and a second pass
changes nothing. -/
theorem sanitizer_conditional_idempotence_witness :
    sanitizeNewsTitle (sanitizeNewsTitle "buy bitcoin".data) =
      sanitizeNewsTitle "buy bitcoin".data :=
  sanitizer_conditional_idempotence "buy bitcoin".data (by decide)

end AiQuant

namespace AiQuant

/-- The store's sort is sorted under the descending created_at order. -/
lemma sortByCreatedDesc_sorted (rows : List CycleRow) :
    List.Sorted createdDescOrder (sortByCreatedDesc rows) :=
  List.sorted_insertionSort _ _

/-- C9 counterexample: the store itself does not bound page size by 100: a
`ListCycles` call with page 1, page_size 500 over 101 rows keeps the
effective LIMIT at 500 and returns all 101 rows. -/
theorem listcycles_page_bound_counterexample :
    (storePage 1 500).1 = 500 ∧
    (ListCycles (List.replicate 101 ⟨"c", 0⟩) 1 500).length = 101 ∧
    100 < 101 := by
  refine ⟨rfl, ?_, by norm_num⟩
  show (((sortByCreatedDesc (List.replicate 101 ⟨"c", 0⟩)).drop
      (storePage 1 500).2.toNat).take (storePage 1 500).1.toNat).length = 101
  have h1 : (storePage 1 500).1 = 500 := rfl
  have h2 : (storePage 1 500).2 = 0 := rfl
  rw [h1, h2, List.length_take, List.length_drop, sortByCreatedDesc,
    List.length_insertionSort, List.length_replicate]
  decide

/-- C9 (amended): the [1,100] page-size bound is enforced by the HTTP
handler, not by the store: the handler's parsed page_size always lies in
[1,100] (default 15), so a page served through the handler never exceeds
100 rows; the store itself only defaults a non-positive page_size to 15
(its effective LIMIT is always ≥ 1 but unbounded above), and every page it
returns is sorted by cycle created_at descending. -/
theorem listcycles_page_bound (rows : List CycleRow) (page pageSize : ℤ)
    (q1 q2 : Option ℤ) :
    1 ≤ (storePage page pageSize).1 ∧
    (1 ≤ handlerPageSize q2 ∧ handlerPageSize q2 ≤ 100) ∧
    (ListCycles rows (handlerPage q1) (handlerPageSize q2)).length ≤ 100 ∧
    List.Sorted createdDescOrder (ListCycles rows page pageSize) := by
  have hhb : 1 ≤ handlerPageSize q2 ∧ handlerPageSize q2 ≤ 100 := by
    cases q2 with
    | none => exact ⟨by norm_num [handlerPageSize], by norm_num [handlerPageSize]⟩
    | some n =>
      simp only [handlerPageSize]
      split_ifs with h
      · omega
      · omega
  refine ⟨?_, hhb, ?_, ?_⟩
  · show 1 ≤ (if pageSize ≤ 0 then (15 : ℤ) else pageSize)
    split_ifs with h <;> omega
  · have hef : (storePage (handlerPage q1) (handlerPageSize q2)).1 =
        handlerPageSize q2 := by
      show (if handlerPageSize q2 ≤ 0 then (15 : ℤ) else handlerPageSize q2) = _
      rw [if_neg (by omega)]
    show (((sortByCreatedDesc rows).drop
        (storePage (handlerPage q1) (handlerPageSize q2)).2.toNat).take
        (storePage (handlerPage q1) (handlerPageSize q2)).1.toNat).length ≤ 100
    calc (((sortByCreatedDesc rows).drop _).take
            (storePage (handlerPage q1) (handlerPageSize q2)).1.toNat).length
        ≤ (storePage (handlerPage q1) (handlerPageSize q2)).1.toNat := by
          rw [List.length_take]
          exact min_le_left _ _
      _ ≤ 100 := by
          rw [hef]
          omega
  · exact List.Pairwise.sublist
      ((List.take_sublist ..).trans (List.drop_sublist ..))
      (sortByCreatedDesc_sorted rows)

end AiQuant
